import Mathlib

/-!
Shallow embedding of the whac-a-mole terminal game (src/main.rs) and
verification of the specification's claims about it.

The two grids (`points : Matrix<usize>` of wall bitmasks and
`views : Matrix<char>` of rendered glyphs) are embedded as total functions
from row/column coordinates; every in-place `|=` or `=` assignment of the
Rust code becomes an explicit single-cell functional update, and the Rust
`for` loops become folds over the exact index ranges the loops traverse.
Process termination via `exit(0)` in `build_block` is embedded as `Option`:
`none` is the terminated process, `some` the surviving mutated view.
-/

namespace WhacAMole

/-- The 16-entry box-drawing lookup table `CHAR_VIEW_LIST` of the source. -/
def charViewList : List Char :=
  [' ', '上', '下', '║', '左', '╚', '╔', '╠', '右', '╝', '╗', '╣', '═', '╩', '╦', '╬']

/-- Functional update of one cell of the glyph grid: `views[r][c] = ch`. -/
def setCell (v : Nat → Nat → Char) (r c : Nat) (ch : Char) : Nat → Nat → Char :=
  fun r' c' => if r' = r ∧ c' = c then ch else v r' c'

/-- Embedding of `write_words(views, left, top, words)`: the Rust loop
`for (i, ch) in words.chars().enumerate() { views[top][left + i] = ch }`,
unrolled as structural recursion on the character list (each step writes
the head at column `left` and continues at `left + 1`). -/
def write_words (views : Nat → Nat → Char) (left top : Nat) (words : List Char) :
    Nat → Nat → Char :=
  match words with
  | [] => views
  | ch :: rest => write_words (setCell views top left ch) (left + 1) top rest

/-- OR-update of one cell of the wall-bitmask grid: `points[r][c] |= v`. -/
def orCell (p : Nat → Nat → Nat) (r c v : Nat) : Nat → Nat → Nat :=
  fun r' c' => if r' = r ∧ c' = c then p r' c' ||| v else p r' c'

/-- The first loop of `build_block`:
`for i in (top + 1)..bottom { points[i][left] |= 3; points[i][right] |= 3; }`. -/
def vEdges (p : Nat → Nat → Nat) (top bottom left right : Nat) : Nat → Nat → Nat :=
  (List.range' (top + 1) (bottom - (top + 1))).foldl
    (fun q i => orCell (orCell q i left 3) i right 3) p

/-- The second loop of `build_block`:
`for i in (left + 1)..right { points[top][i] |= 12; points[bottom][i] |= 12; }`. -/
def hEdges (p : Nat → Nat → Nat) (top bottom left right : Nat) : Nat → Nat → Nat :=
  (List.range' (left + 1) (right - (left + 1))).foldl
    (fun q i => orCell (orCell q top i 12) bottom i 12) p

/-- The full mutation of the `points` grid performed by an accepted
`build_block` call: the two edge loops followed by the four corner
assignments `|= 6`, `|= 10`, `|= 5`, `|= 9` in source order. -/
def buildBlockPoints (p : Nat → Nat → Nat) (top bottom left right : Nat) :
    Nat → Nat → Nat :=
  orCell (orCell (orCell (orCell (hEdges (vEdges p top bottom left right)
    top bottom left right) top left 6) top right 10) bottom left 5) bottom right 9

structure Dimension where
  width : Nat
  height : Nat
deriving DecidableEq

structure Hole where
  x : Nat
  y : Nat
deriving DecidableEq

/-- A mole: `Marmot { view: String, appeared: bool }`. -/
structure Marmot where
  view : String
  appeared : Bool
deriving DecidableEq

/-- `Marmot::new()`. -/
def Marmot.new : Marmot :=
  { view := "🐭", appeared := false }

structure GameView where
  points : Nat → Nat → Nat
  views : Nat → Nat → Char
  hole_points : List Hole
  hole_marmots : List Marmot
  size : Dimension

/-- `GameView::new(size)`: zeroed bitmask grid, blank glyph grid, no holes. -/
def GameView.new (size : Dimension) : GameView :=
  { points := fun _ _ => 0
    views := fun _ _ => ' '
    hole_points := []
    hole_marmots := []
    size := size }

/-- `update_block_char`: each glyph cell is `CHAR_VIEW_LIST[points[r][c]]`,
recomputed as a pure function of the bitmask grid. -/
def update_block_char (points : Nat → Nat → Nat) : Nat → Nat → Char :=
  fun r c => charViewList.getD (points r c) ' '

/-- The mutated view produced by an accepted `build_block` call: updated
`points`, then `views` recomputed by `update_block_char`. -/
def builtView (g : GameView) (top bottom left right : Nat) : GameView :=
  let pts := buildBlockPoints g.points top bottom left right
  { g with points := pts, views := update_block_char pts }

/-- Embedding of `GameView::build_block`. The source first checks
`top >= height || bottom >= height || left >= width || right >= width ||
left == right || top == bottom` and calls `exit(0)` (embedded as `none`)
when it holds; otherwise it mutates the grids and survives (`some`). -/
def build_block (g : GameView) (top bottom left right : Nat) : Option GameView :=
  if g.size.height ≤ top ∨ g.size.height ≤ bottom ∨ g.size.width ≤ left ∨
      g.size.width ≤ right ∨ left = right ∨ top = bottom then
    none
  else
    some (builtView g top bottom left right)

/-- A sequence of `build_block` calls, each parameter quadruple
`(top, bottom, left, right)`; `none` as soon as one call is rejected. -/
def buildSeq (g : GameView) (ps : List (Nat × Nat × Nat × Nat)) : Option GameView :=
  ps.foldlM (fun h p => build_block h p.1 p.2.1 p.2.2.1 p.2.2.2) g

inductive GameState where
  | Stopped : GameState
  | Playing : GameState
deriving DecidableEq

structure Game where
  view : GameView
  state : GameState
  scores : Nat
  time : Nat

/-- `Game::new(size)`: stopped, zero score, 60 seconds. -/
def Game.new (size : Dimension) : Game :=
  { view := GameView.new size
    state := GameState.Stopped
    scores := 0
    time := 60 }

/-- Character list of `format!("Scores: {}", scores)`. -/
def scoresText (n : Nat) : List Char :=
  ("Scores: " ++ toString n).data

/-- Character list of `format!("Time: {}", time)`. -/
def timeText (n : Nat) : List Char :=
  ("Time: " ++ toString n).data

/-- Character list of `format!("Game is Over!")`. -/
def gameOverText : List Char :=
  "Game is Over!".data

/-- The field assignment `marmots[idx].appeared = b` (a no-op when `idx` is
out of range, which never happens in the game where the list has length 9). -/
def setAppeared (ms : List Marmot) (idx : Nat) (b : Bool) : List Marmot :=
  ms.set idx { ms.getD idx Marmot.new with appeared := b }

/-- The `appeared` flag of hole `idx`. -/
def appearedAt (ms : List Marmot) (idx : Nat) : Bool :=
  (ms.getD idx Marmot.new).appeared

/-- The clearing loop of the spawn thread:
`for idx in 0..9 { marmots[idx].appeared = false; }`. -/
def clearAppeared (ms : List Marmot) : List Marmot :=
  (List.range 9).foldl (fun a i => setAppeared a i false) ms

/-- The hole coordinate `hole_points[idx]` of a view. -/
def holeAt (g : GameView) (idx : Nat) : Hole :=
  g.hole_points.getD idx { x := 0, y := 0 }

/-- One iteration of the spawn-scheduler thread body, taking the tick's
random draws as input (`draws` lists the successive `get_random_num(0, 8)`
results; its length is the `get_random_num(1, 6)` result). The source
checks `Stopped` and returns, else clears all nine `appeared` flags and
glyphs, then for each draw marks the hole appeared and writes its glyph,
then refreshes the score overlay. -/
def spawnTick (g : Game) (draws : List Nat) : Game :=
  if g.state = GameState.Stopped then g
  else
    let marmots0 := clearAppeared g.view.hole_marmots
    let views0 := (List.range 9).foldl
      (fun v i => write_words v (holeAt g.view i).x (holeAt g.view i).y " ".data)
      g.view.views
    let mv := draws.foldl
      (fun (p : List Marmot × (Nat → Nat → Char)) ri =>
        (setAppeared p.1 ri true,
         write_words p.2 (holeAt g.view ri).x (holeAt g.view ri).y "🐭".data))
      (marmots0, views0)
    let views1 := write_words mv.2 50 9 (scoresText g.scores)
    { g with view := { g.view with hole_marmots := mv.1, views := views1 } }

/-- One iteration of the timer thread body (after its sleep): return if
`Stopped`; else decrement `time` when positive, otherwise flip the state to
`Stopped` and write the "Game is Over!" overlay; in both cases refresh the
"Time:" overlay with the updated time. -/
def timerTick (g : Game) : Game :=
  if g.state = GameState.Stopped then g
  else
    let g1 :=
      if 0 < g.time then { g with time := g.time - 1 }
      else { g with state := GameState.Stopped,
                    view := { g.view with
                      views := write_words g.view.views 50 5 gameOverText } }
    { g1 with view := { g1.view with
        views := write_words g1.view.views 50 11 (timeText g1.time) } }

/-- The `'1'..='9'` arm of the input loop for a digit character `ch`:
`idx = ch.to_digit(10) - 1`; if `marmots[idx].appeared`, overwrite the
hole's glyph with the struck marker and add 10 to the score; otherwise do
nothing. The source never clears the `appeared` flag here. -/
def pressDigit (g : Game) (ch : Char) : Game :=
  let idx := ch.toNat - 48 - 1
  let p := holeAt g.view idx
  if appearedAt g.view.hole_marmots idx then
    { g with
      view := { g.view with views := write_words g.view.views p.x p.y "❌".data }
      scores := g.scores + 10 }
  else g

/-- The whole mutable state of the input loop: the shared game plus the
loop-local `has_egg` flag guarding the one-shot win banner. -/
structure Sys where
  game : Game
  hasEgg : Bool

/-- The win-banner guard `game.scores > 1024 && !has_egg`. -/
def winFires (s : Sys) : Bool :=
  decide (1024 < s.game.scores) && !s.hasEgg

/-- The win-condition block run after each processed event: when the guard
fires, set the state to `Stopped` and mark the banner shown (the banner
itself is terminal output, outside the embedded state). -/
def winCheck (s : Sys) : Sys :=
  if winFires s then
    { game := { s.game with state := GameState.Stopped }, hasEgg := true }
  else s

/-- Event processing of the input loop's `match`: a digit key strikes its
hole, every other key (but `'q'`) is ignored. -/
def processEvent (s : Sys) (ch : Char) : Sys :=
  if '1' ≤ ch ∧ ch ≤ '9' then { s with game := pressDigit s.game ch } else s

/-- One full iteration of the input loop on a character key: `'q'` breaks
out of the loop at once (state untouched, win check skipped); any other key
is processed and then the win-condition block runs. -/
def inputStep (s : Sys) (ch : Char) : Sys :=
  if ch = 'q' then s else winCheck (processEvent s ch)

/-- Whether the one-shot win banner is rendered during the input-loop
iteration that handles key `ch` from state `s`. -/
def stepFires (s : Sys) (ch : Char) : Bool :=
  if ch = 'q' then false else winFires (processEvent s ch)

/-- One atomic step of any of the three actors, each taken while holding
the Game-State lock: a timer tick, a spawn tick with its random draws, or
an input-loop iteration on a key. -/
inductive Act where
  | timer : Act
  | spawn : List Nat → Act
  | key : Char → Act

/-- The step function of the whole system. -/
def sysStep (s : Sys) : Act → Sys
  | Act.timer => { s with game := timerTick s.game }
  | Act.spawn draws => { s with game := spawnTick s.game draws }
  | Act.key ch => inputStep s ch

/-- Abstract per-iteration operations of a thread's loop body, in source
order: `acquire`/`release` of the Game-State mutex guard (a guard is
released where it is dropped, at the end of its enclosing block), `suspend`
for a sleep or a blocking event read, `work` for everything else. -/
inductive ThreadOp where
  | acquire : ThreadOp
  | release : ThreadOp
  | suspend : ThreadOp
  | work : ThreadOp
deriving DecidableEq

/-- The spawn-scheduler loop body: `GAME.lock()` (acquire), the `Stopped`
check (work), `thread::sleep(1000ms)` (suspend), the spawn mutations and
redraw (work), guard drop at the end of the iteration (release). -/
def spawnLoopOps : List ThreadOp :=
  [ThreadOp.acquire, ThreadOp.work, ThreadOp.suspend, ThreadOp.work,
   ThreadOp.release]

/-- The timer loop body: `thread::sleep(1000ms)` (suspend), `GAME.lock()`
(acquire), the tick mutations and redraw (work), guard drop (release). -/
def timerLoopOps : List ThreadOp :=
  [ThreadOp.suspend, ThreadOp.acquire, ThreadOp.work, ThreadOp.release]

/-- The input-dispatcher loop body: the blocking `read()` (suspend), the
digit arm's `GAME.lock()`, hit processing, guard drop at the arm's end,
then the win-check block's own `GAME.lock()`, check, guard drop. -/
def inputLoopOps : List ThreadOp :=
  [ThreadOp.suspend, ThreadOp.work, ThreadOp.acquire, ThreadOp.work,
   ThreadOp.release, ThreadOp.acquire, ThreadOp.work, ThreadOp.release]

/-- Whether a loop body ever suspends (sleeps or blocks) while at least one
mutex guard acquired earlier in the same body is still held. -/
def holdsLockAcrossSuspend (ops : List ThreadOp) : Bool :=
  (ops.foldl
    (fun (st : Nat × Bool) op =>
      match op with
      | ThreadOp.acquire => (st.1 + 1, st.2)
      | ThreadOp.release => (st.1 - 1, st.2)
      | ThreadOp.suspend => (st.1, st.2 || decide (0 < st.1))
      | ThreadOp.work => st)
    (0, false)).2

/-- The total contribution a single `build_block(top, bottom, left, right)`
call ORs into bitmask cell `(rr, cc)`: 3 on the interiors of the two
vertical edges, 12 on the interiors of the two horizontal edges, and the
four corner junction values 6, 10, 5, 9. Proved below to characterise
`buildBlockPoints` exactly on every accepted call. -/
def blockMask (top bottom left right rr cc : Nat) : Nat :=
  (if rr = top ∧ cc = left then 6 else 0) |||
  (if rr = top ∧ cc = right then 10 else 0) |||
  (if rr = bottom ∧ cc = left then 5 else 0) |||
  (if rr = bottom ∧ cc = right then 9 else 0) |||
  (if (top < rr ∧ rr < bottom) ∧ (cc = left ∨ cc = right) then 3 else 0) |||
  (if (rr = top ∨ rr = bottom) ∧ (left < cc ∧ cc < right) then 12 else 0)

/-- The game's dimensions (`width: 70, height: 25`). -/
def gameDim : Dimension :=
  { width := 70, height := 25 }

/-- A fresh view of the game's dimensions. -/
def demoView : GameView :=
  GameView.new gameDim

/-- The nine hole centers laid out by `main`: origin box `(3,7,3,11)`,
center `((left+right)/2, (top+bottom)/2)`, spaced by 12 horizontally and 6
vertically in row-major order. -/
def demoHoles : List Hole :=
  [{ x := 7, y := 5 }, { x := 19, y := 5 }, { x := 31, y := 5 },
   { x := 7, y := 11 }, { x := 19, y := 11 }, { x := 31, y := 11 },
   { x := 7, y := 17 }, { x := 19, y := 17 }, { x := 31, y := 17 }]

/-- A running game with the nine holes registered and no mole showing. -/
def demoGame : Game :=
  { view := { demoView with
      hole_points := demoHoles
      hole_marmots := List.replicate 9 Marmot.new }
    state := GameState.Playing
    scores := 0
    time := 60 }

/-- The running game right after a spawn tick revealed hole 0. -/
def demoGameHit : Game :=
  { demoGame with view := { demoGame.view with
      hole_marmots := setAppeared demoGame.view.hole_marmots 0 true } }

/-- A system state whose score is already over the win threshold but whose
banner has not fired yet. -/
def demoSys : Sys :=
  { game := { demoGame with scores := 2000 }, hasEgg := false }

theorem getD_set_ne {α : Type} (ms : List α) (i j : Nat) (a d : α) (h : j ≠ i) :
    (ms.set i a).getD j d = ms.getD j d := by
  induction ms generalizing i j with
  | nil => rfl
  | cons x xs ih =>
    cases i with
    | zero =>
      cases j with
      | zero => exact absurd rfl h
      | succ j => simp [List.set]
    | succ i =>
      cases j with
      | zero => simp [List.set]
      | succ j =>
        simp only [List.set, List.getD_cons_succ]
        exact ih i j (by omega)

theorem getD_set_self {α : Type} (ms : List α) (i : Nat) (a d : α)
    (h : i < ms.length) :
    (ms.set i a).getD i d = a := by
  induction ms generalizing i with
  | nil => simp at h
  | cons x xs ih =>
    cases i with
    | zero => simp [List.set]
    | succ i =>
      simp only [List.set, List.getD_cons_succ]
      exact ih i (by simpa using h)

theorem write_words_frame (words : List Char) :
    ∀ (views : Nat → Nat → Char) (left top r c : Nat),
      (r ≠ top ∨ c < left ∨ left + words.length ≤ c) →
      write_words views left top words r c = views r c := by
  induction words with
  | nil => intro views left top r c _; rfl
  | cons ch rest ih =>
    intro views left top r c h
    show write_words (setCell views top left ch) (left + 1) top rest r c = views r c
    rw [ih]
    · unfold setCell
      rw [if_neg]
      rcases h with h | h | h
      · exact fun hc => h hc.1
      · exact fun hc => absurd hc.2 (by omega)
      · exact fun hc => absurd hc.2 (by simp at h ⊢; omega)
    · rcases h with h | h | h
      · exact Or.inl h
      · exact Or.inr (Or.inl (by omega))
      · exact Or.inr (Or.inr (by simp at h ⊢; omega))

/-- C8: `write_words(views, left, top, words)` modifies only the cells of
row `top` at columns `left .. left + words.length - 1` of the glyph grid —
every other glyph cell is unchanged — and it never touches the
wall-bitmask grid at all. -/
theorem C8_write_words_frame :
    (∀ (views : Nat → Nat → Char) (left top : Nat) (words : List Char)
       (r c : Nat),
      (r ≠ top ∨ c < left ∨ left + words.length ≤ c) →
      write_words views left top words r c = views r c) ∧
    (∀ (g : GameView) (left top : Nat) (words : List Char),
      ({ g with views := write_words g.views left top words } : GameView).points
        = g.points) := by
  constructor
  · intro views left top words r c h
    exact write_words_frame words views left top r c h
  · intro g left top words
    rfl

/-- Witness for C8 at a concrete input: writing "ab" at column 2 of row 3
leaves cell (0, 0) blank. -/
theorem C8_witness :
    ((0 : Nat) ≠ 3 ∨ (0 : Nat) < 2 ∨ 2 + ("ab".data).length ≤ 0) ∧
    write_words (fun _ _ => ' ') 2 3 "ab".data 0 0 = ' ' :=
  ⟨Or.inl (by decide),
   C8_write_words_frame.1 (fun _ _ => ' ') 2 3 "ab".data 0 0 (Or.inl (by decide))⟩

/-- C9 counterexample: the claim says no actor holds the Game-State lock
across its sleep or blocking point, but the spawn-scheduler thread acquires
the lock at the top of its loop body and only then sleeps, releasing the
guard at the end of the iteration — it does hold the lock across its
sleep. -/
theorem C9_counterexample :
    ¬ holdsLockAcrossSuspend spawnLoopOps = false := by
  decide

/-- C9 amended: the Timer Task and the Input Dispatcher never hold the
Game-State lock across their sleep or blocking point, but the Spawn
Scheduler acquires the lock before its sleep and holds it across the
sleep, releasing only at the end of the iteration. -/
theorem C9_amended_lock_discipline :
    holdsLockAcrossSuspend timerLoopOps = false ∧
    holdsLockAcrossSuspend inputLoopOps = false ∧
    holdsLockAcrossSuspend spawnLoopOps = true := by
  decide

theorem orCell_eval (p : Nat → Nat → Nat) (r c v rr cc : Nat) :
    orCell p r c v rr cc = if rr = r ∧ cc = c then p rr cc ||| v else p rr cc :=
  rfl

theorem vstep_eval (p : Nat → Nat → Nat) (i l r rr cc : Nat) (hlr : l ≠ r) :
    orCell (orCell p i l 3) i r 3 rr cc
      = if rr = i ∧ (cc = l ∨ cc = r) then p rr cc ||| 3 else p rr cc := by
  rw [orCell_eval, orCell_eval]
  by_cases hi : rr = i
  · by_cases hcl : cc = l
    · have hcr : ¬ cc = r := by rw [hcl]; exact hlr
      simp [hi, hcl, hcr, hlr, Ne.symm hlr]
    · by_cases hcr : cc = r
      · simp [hi, hcl, hcr, hlr, Ne.symm hlr]
      · simp [hi, hcl, hcr]
  · simp [hi]

theorem vfold_eval (rows : List Nat) (p : Nat → Nat → Nat) (l r : Nat)
    (hlr : l ≠ r) (rr cc : Nat) :
    (rows.foldl (fun q i => orCell (orCell q i l 3) i r 3) p) rr cc
      = if rr ∈ rows ∧ (cc = l ∨ cc = r) then p rr cc ||| 3 else p rr cc := by
  induction rows generalizing p with
  | nil => simp
  | cons i rows ih =>
    rw [List.foldl_cons, ih, vstep_eval p i l r rr cc hlr]
    by_cases hm : rr ∈ rows <;> by_cases hi : rr = i <;>
      by_cases hc : cc = l ∨ cc = r <;>
      simp [hm, hi, hc, Nat.or_assoc, Nat.or_self]

theorem hstep_eval (p : Nat → Nat → Nat) (i t b rr cc : Nat) (htb : t ≠ b) :
    orCell (orCell p t i 12) b i 12 rr cc
      = if cc = i ∧ (rr = t ∨ rr = b) then p rr cc ||| 12 else p rr cc := by
  rw [orCell_eval, orCell_eval]
  by_cases hc : cc = i
  · by_cases hrt : rr = t
    · have hrb : ¬ rr = b := by rw [hrt]; exact htb
      simp [hc, hrt, hrb, htb, Ne.symm htb]
    · by_cases hrb : rr = b
      · simp [hc, hrt, hrb, htb, Ne.symm htb]
      · simp [hc, hrt, hrb]
  · simp [hc]

theorem hfold_eval (cols : List Nat) (p : Nat → Nat → Nat) (t b : Nat)
    (htb : t ≠ b) (rr cc : Nat) :
    (cols.foldl (fun q i => orCell (orCell q t i 12) b i 12) p) rr cc
      = if cc ∈ cols ∧ (rr = t ∨ rr = b) then p rr cc ||| 12 else p rr cc := by
  induction cols generalizing p with
  | nil => simp
  | cons i cols ih =>
    rw [List.foldl_cons, ih, hstep_eval p i t b rr cc htb]
    by_cases hm : cc ∈ cols <;> by_cases hi : cc = i <;>
      by_cases hc : rr = t ∨ rr = b <;>
      simp [hm, hi, hc, Nat.or_assoc, Nat.or_self]

theorem vEdges_eval (p : Nat → Nat → Nat) (t b l r rr cc : Nat) (hlr : l ≠ r) :
    vEdges p t b l r rr cc
      = if (t < rr ∧ rr < b) ∧ (cc = l ∨ cc = r) then p rr cc ||| 3
        else p rr cc := by
  rw [vEdges, vfold_eval _ _ _ _ hlr]
  have hmem : rr ∈ List.range' (t + 1) (b - (t + 1)) ↔ (t < rr ∧ rr < b) := by
    rw [List.mem_range'_1]; omega
  by_cases h : (t < rr ∧ rr < b) ∧ (cc = l ∨ cc = r)
  · rw [if_pos ⟨hmem.mpr h.1, h.2⟩, if_pos h]
  · rw [if_neg (fun hx => h ⟨hmem.mp hx.1, hx.2⟩), if_neg h]

theorem hEdges_eval (p : Nat → Nat → Nat) (t b l r rr cc : Nat) (htb : t ≠ b) :
    hEdges p t b l r rr cc
      = if (l < cc ∧ cc < r) ∧ (rr = t ∨ rr = b) then p rr cc ||| 12
        else p rr cc := by
  rw [hEdges, hfold_eval _ _ _ _ htb]
  have hmem : cc ∈ List.range' (l + 1) (r - (l + 1)) ↔ (l < cc ∧ cc < r) := by
    rw [List.mem_range'_1]; omega
  by_cases h : (l < cc ∧ cc < r) ∧ (rr = t ∨ rr = b)
  · rw [if_pos ⟨hmem.mpr h.1, h.2⟩, if_pos h]
  · rw [if_neg (fun hx => h ⟨hmem.mp hx.1, hx.2⟩), if_neg h]

theorem buildBlockPoints_eval (p : Nat → Nat → Nat) (t b l r rr cc : Nat)
    (htb : t ≠ b) (hlr : l ≠ r) :
    buildBlockPoints p t b l r rr cc = p rr cc ||| blockMask t b l r rr cc := by
  unfold buildBlockPoints blockMask
  rw [orCell_eval, orCell_eval, orCell_eval, orCell_eval,
    hEdges_eval _ _ _ _ _ _ _ htb, vEdges_eval _ _ _ _ _ _ _ hlr]
  split_ifs <;> first
    | (exfalso; omega)
    | simp [Nat.or_zero, Nat.zero_or, Nat.or_assoc]

theorem blockMask_int_left (t b l r i : Nat) (h1 : t < i) (h2 : i < b) :
    blockMask t b l r i l = 3 := by
  unfold blockMask
  split_ifs <;> first | (exfalso; omega) | decide

theorem blockMask_int_right (t b l r i : Nat) (h1 : t < i) (h2 : i < b) :
    blockMask t b l r i r = 3 := by
  unfold blockMask
  split_ifs <;> first | (exfalso; omega) | decide

theorem blockMask_top_edge (t b l r j : Nat) (h1 : l < j) (h2 : j < r) :
    blockMask t b l r t j = 12 := by
  unfold blockMask
  split_ifs <;> first | (exfalso; omega) | decide

theorem blockMask_bottom_edge (t b l r j : Nat) (h1 : l < j) (h2 : j < r) :
    blockMask t b l r b j = 12 := by
  unfold blockMask
  split_ifs <;> first | (exfalso; omega) | decide

theorem blockMask_corner_tl (t b l r : Nat) (htb : t ≠ b) (hlr : l ≠ r) :
    blockMask t b l r t l = 6 := by
  unfold blockMask
  split_ifs <;> first | (exfalso; omega) | decide

theorem blockMask_corner_tr (t b l r : Nat) (htb : t ≠ b) (hlr : l ≠ r) :
    blockMask t b l r t r = 10 := by
  unfold blockMask
  split_ifs <;> first | (exfalso; omega) | decide

theorem blockMask_corner_bl (t b l r : Nat) (htb : t ≠ b) (hlr : l ≠ r) :
    blockMask t b l r b l = 5 := by
  unfold blockMask
  split_ifs <;> first | (exfalso; omega) | decide

theorem blockMask_corner_br (t b l r : Nat) (htb : t ≠ b) (hlr : l ≠ r) :
    blockMask t b l r b r = 9 := by
  unfold blockMask
  split_ifs <;> first | (exfalso; omega) | decide

theorem blockMask_lt_sixteen (t b l r rr cc : Nat) :
    blockMask t b l r rr cc < 16 := by
  unfold blockMask
  split_ifs <;> decide

theorem blockMask_ne_zero (t b l r rr cc : Nat)
    (h : blockMask t b l r rr cc ≠ 0) :
    (rr = t ∨ rr = b ∨ (t < rr ∧ rr < b)) ∧
    (cc = l ∨ cc = r ∨ (l < cc ∧ cc < r)) := by
  unfold blockMask at h
  split_ifs at h <;> first | omega | exact absurd (by decide) h

theorem build_block_eq_some {g : GameView} {t b l r : Nat} {g' : GameView}
    (h : build_block g t b l r = some g') :
    t < g.size.height ∧ b < g.size.height ∧ l < g.size.width ∧
    r < g.size.width ∧ l ≠ r ∧ t ≠ b ∧ g' = builtView g t b l r := by
  unfold build_block at h
  split at h
  · exact absurd h (by simp)
  · rename_i hc
    push_neg at hc
    obtain ⟨h1, h2, h3, h4, h5, h6⟩ := hc
    exact ⟨h1, h2, h3, h4, h5, h6, (Option.some.inj h).symm⟩

theorem build_block_accept (g : GameView) {t b l r : Nat}
    (ht : t < b) (hb : b < g.size.height) (hl : l < r) (hr : r < g.size.width) :
    build_block g t b l r = some (builtView g t b l r) := by
  unfold build_block
  rw [if_neg (by omega)]

theorem builtView_points (g : GameView) (t b l r : Nat) :
    (builtView g t b l r).points = buildBlockPoints g.points t b l r :=
  rfl

theorem builtView_views (g : GameView) (t b l r : Nat) :
    (builtView g t b l r).views
      = update_block_char (buildBlockPoints g.points t b l r) :=
  rfl

theorem builtView_size (g : GameView) (t b l r : Nat) :
    (builtView g t b l r).size = g.size :=
  rfl

theorem or_self_or (a m : Nat) : a ||| (a ||| m) = a ||| m := by
  rw [← Nat.or_assoc, Nat.or_self]

theorem or_absorb_left (m x : Nat) : m ||| (x ||| m) = x ||| m := by
  rw [Nat.or_comm x m, ← Nat.or_assoc, Nat.or_self]

theorem sub_or_mono {m x : Nat} (h : m ||| x = x) (k : Nat) :
    m ||| (x ||| k) = x ||| k := by
  rw [← Nat.or_assoc, h]

theorem or_or_comm (a m k : Nat) : a ||| m ||| k = a ||| k ||| m := by
  rw [Nat.or_assoc, Nat.or_assoc, Nat.or_comm m k]

/-- C6: every `build_block` call satisfying the spec's precondition ORs 3
into the interior cells of its left and right edges, 12 into the interior
cells of its top and bottom edges, and exactly 6, 10, 5, 9 into its four
corners, preserving every bit already present in the grid. -/
theorem C6_build_block_effect :
    ∀ (g : GameView) (t b l r : Nat) (g' : GameView),
      t < b → b < g.size.height → l < r → r < g.size.width →
      build_block g t b l r = some g' →
      (∀ i, t < i → i < b →
        g'.points i l = g.points i l ||| 3 ∧
        g'.points i r = g.points i r ||| 3) ∧
      (∀ j, l < j → j < r →
        g'.points t j = g.points t j ||| 12 ∧
        g'.points b j = g.points b j ||| 12) ∧
      g'.points t l = g.points t l ||| 6 ∧
      g'.points t r = g.points t r ||| 10 ∧
      g'.points b l = g.points b l ||| 5 ∧
      g'.points b r = g.points b r ||| 9 ∧
      (∀ rr cc, g.points rr cc ||| g'.points rr cc = g'.points rr cc) := by
  intro g t b l r g' ht hb hl hr hsome
  obtain ⟨-, -, -, -, hlr, htb, rfl⟩ := build_block_eq_some hsome
  rw [builtView_points]
  refine ⟨?_, ?_, ?_, ?_, ?_, ?_, ?_⟩
  · intro i h1 h2
    rw [buildBlockPoints_eval _ _ _ _ _ _ _ htb hlr,
      buildBlockPoints_eval _ _ _ _ _ _ _ htb hlr,
      blockMask_int_left _ _ _ _ _ h1 h2, blockMask_int_right _ _ _ _ _ h1 h2]
    exact ⟨rfl, rfl⟩
  · intro j h1 h2
    rw [buildBlockPoints_eval _ _ _ _ _ _ _ htb hlr,
      buildBlockPoints_eval _ _ _ _ _ _ _ htb hlr,
      blockMask_top_edge _ _ _ _ _ h1 h2, blockMask_bottom_edge _ _ _ _ _ h1 h2]
    exact ⟨rfl, rfl⟩
  · rw [buildBlockPoints_eval _ _ _ _ _ _ _ htb hlr,
      blockMask_corner_tl _ _ _ _ htb hlr]
  · rw [buildBlockPoints_eval _ _ _ _ _ _ _ htb hlr,
      blockMask_corner_tr _ _ _ _ htb hlr]
  · rw [buildBlockPoints_eval _ _ _ _ _ _ _ htb hlr,
      blockMask_corner_bl _ _ _ _ htb hlr]
  · rw [buildBlockPoints_eval _ _ _ _ _ _ _ htb hlr,
      blockMask_corner_br _ _ _ _ htb hlr]
  · intro rr cc
    rw [buildBlockPoints_eval _ _ _ _ _ _ _ htb hlr]
    exact or_self_or _ _

/-- Witness for C6 at a concrete input: building the block (0, 2, 0, 2) on
a fresh 70 by 25 view ORs 3 into the interior left-edge cell (1, 0). -/
theorem C6_witness :
    ((build_block demoView 0 2 0 2).getD demoView).points 1 0
      = demoView.points 1 0 ||| 3 := by
  have h : build_block demoView 0 2 0 2
      = some ((build_block demoView 0 2 0 2).getD demoView) := rfl
  exact ((C6_build_block_effect demoView 0 2 0 2 _ (by decide) (by decide)
    (by decide) (by decide) h).1 1 (by decide) (by decide)).1

theorem buildSeq_nil (g : GameView) : buildSeq g [] = some g :=
  rfl

theorem buildSeq_cons (g : GameView) (p : Nat × Nat × Nat × Nat)
    (ps : List (Nat × Nat × Nat × Nat)) :
    buildSeq g (p :: ps)
      = (build_block g p.1 p.2.1 p.2.2.1 p.2.2.2).bind (fun g1 => buildSeq g1 ps) := by
  cases h : build_block g p.1 p.2.1 p.2.2.1 p.2.2.2 with
  | none =>
    show (build_block g p.1 p.2.1 p.2.2.1 p.2.2.2) >>= _ = _
    rw [h]
    rfl
  | some g1 =>
    show (build_block g p.1 p.2.1 p.2.2.1 p.2.2.2) >>= _ = _
    rw [h]
    rfl

theorem buildSeq_mono (ps : List (Nat × Nat × Nat × Nat)) :
    ∀ (g gf : GameView), buildSeq g ps = some gf →
      ∀ (rr cc m : Nat), m ||| g.points rr cc = g.points rr cc →
        m ||| gf.points rr cc = gf.points rr cc := by
  induction ps with
  | nil =>
    intro g gf h rr cc m hm
    rw [buildSeq_nil] at h
    rw [← Option.some.inj h]
    exact hm
  | cons p ps ih =>
    intro g gf h rr cc m hm
    rw [buildSeq_cons] at h
    obtain ⟨g1, hg1, hrest⟩ := Option.bind_eq_some.mp h
    obtain ⟨-, -, -, -, hlr, htb, rfl⟩ := build_block_eq_some hg1
    refine ih _ _ hrest rr cc m ?_
    rw [builtView_points, buildBlockPoints_eval _ _ _ _ _ _ _ htb hlr]
    exact sub_or_mono hm _

theorem buildSeq_mask_sub (g : GameView) (ps : List (Nat × Nat × Nat × Nat))
    (gf : GameView) (t b l r : Nat)
    (h : buildSeq g ps = some gf) (hmem : (t, b, l, r) ∈ ps) :
    ∀ rr cc, blockMask t b l r rr cc ||| gf.points rr cc = gf.points rr cc := by
  obtain ⟨s1, s2, rfl⟩ := List.append_of_mem hmem
  rw [buildSeq, List.foldlM_append] at h
  obtain ⟨gm, hgm, hrest⟩ := Option.bind_eq_some.mp h
  rw [show List.foldlM (fun h p => build_block h p.1 p.2.1 p.2.2.1 p.2.2.2) gm
      ((t, b, l, r) :: s2) = buildSeq gm ((t, b, l, r) :: s2) from rfl,
    buildSeq_cons] at hrest
  obtain ⟨gp, hgp, hrest2⟩ := Option.bind_eq_some.mp hrest
  obtain ⟨-, -, -, -, hlr, htb, rfl⟩ := build_block_eq_some hgp
  intro rr cc
  refine buildSeq_mono s2 _ _ hrest2 rr cc _ ?_
  rw [builtView_points, buildBlockPoints_eval _ _ _ _ _ _ _ htb hlr]
  exact or_absorb_left _ _

theorem buildSeq_pair_accept (g : GameView) {t1 b1 l1 r1 t2 b2 l2 r2 : Nat}
    (h1 : t1 < b1) (h2 : b1 < g.size.height) (h3 : l1 < r1)
    (h4 : r1 < g.size.width) (h5 : t2 < b2) (h6 : b2 < g.size.height)
    (h7 : l2 < r2) (h8 : r2 < g.size.width) :
    buildSeq g [(t1, b1, l1, r1), (t2, b2, l2, r2)]
      = some (builtView (builtView g t1 b1 l1 r1) t2 b2 l2 r2) := by
  have e1 := build_block_accept g h1 h2 h3 h4
  have e2 := build_block_accept (builtView g t1 b1 l1 r1) h5 h6 h7 h8
  calc buildSeq g [(t1, b1, l1, r1), (t2, b2, l2, r2)]
      = (build_block g t1 b1 l1 r1).bind
          (fun g1 => (build_block g1 t2 b2 l2 r2).bind (fun g2 => some g2)) := rfl
    _ = some (builtView (builtView g t1 b1 l1 r1) t2 b2 l2 r2) := by
        rw [e1]
        show (build_block (builtView g t1 b1 l1 r1) t2 b2 l2 r2).bind
          (fun g2 => some g2) = _
        rw [e2]
        rfl

/-- C7: two valid `build_block` calls commute — both orders are accepted
and produce identical bitmask and glyph grids — and after any accepted
sequence of calls every rectangle of the sequence still has its interior
edge bits (3 and 12) and its corner junction bits (6, 10, 5, 9) set in the
final grid, because bits are only ever accumulated by bitwise OR. -/
theorem C7_build_block_commute :
    (∀ (g : GameView) (t1 b1 l1 r1 t2 b2 l2 r2 : Nat),
      t1 < b1 → b1 < g.size.height → l1 < r1 → r1 < g.size.width →
      t2 < b2 → b2 < g.size.height → l2 < r2 → r2 < g.size.width →
      (buildSeq g [(t1, b1, l1, r1), (t2, b2, l2, r2)]).isSome = true ∧
      (∀ rr cc,
        ((buildSeq g [(t1, b1, l1, r1), (t2, b2, l2, r2)]).getD g).points rr cc
          = ((buildSeq g [(t2, b2, l2, r2), (t1, b1, l1, r1)]).getD g).points rr cc) ∧
      (∀ rr cc,
        ((buildSeq g [(t1, b1, l1, r1), (t2, b2, l2, r2)]).getD g).views rr cc
          = ((buildSeq g [(t2, b2, l2, r2), (t1, b1, l1, r1)]).getD g).views rr cc)) ∧
    (∀ (g : GameView) (ps : List (Nat × Nat × Nat × Nat)) (gf : GameView)
       (t b l r : Nat),
      buildSeq g ps = some gf → (t, b, l, r) ∈ ps → t < b → l < r →
      (∀ i, t < i → i < b →
        3 ||| gf.points i l = gf.points i l ∧
        3 ||| gf.points i r = gf.points i r) ∧
      (∀ j, l < j → j < r →
        12 ||| gf.points t j = gf.points t j ∧
        12 ||| gf.points b j = gf.points b j) ∧
      6 ||| gf.points t l = gf.points t l ∧
      10 ||| gf.points t r = gf.points t r ∧
      5 ||| gf.points b l = gf.points b l ∧
      9 ||| gf.points b r = gf.points b r) := by
  constructor
  · intro g t1 b1 l1 r1 t2 b2 l2 r2 ht1 hb1 hl1 hr1 ht2 hb2 hl2 hr2
    have e12 := buildSeq_pair_accept g ht1 hb1 hl1 hr1 ht2 hb2 hl2 hr2
    have e21 := buildSeq_pair_accept g ht2 hb2 hl2 hr2 ht1 hb1 hl1 hr1
    have hpts : ∀ rr cc,
        (builtView (builtView g t1 b1 l1 r1) t2 b2 l2 r2).points rr cc
          = (builtView (builtView g t2 b2 l2 r2) t1 b1 l1 r1).points rr cc := by
      intro rr cc
      rw [builtView_points, builtView_points,
        buildBlockPoints_eval _ _ _ _ _ _ _ (Nat.ne_of_lt ht2) (Nat.ne_of_lt hl2),
        buildBlockPoints_eval _ _ _ _ _ _ _ (Nat.ne_of_lt ht1) (Nat.ne_of_lt hl1),
        builtView_points, builtView_points,
        buildBlockPoints_eval _ _ _ _ _ _ _ (Nat.ne_of_lt ht1) (Nat.ne_of_lt hl1),
        buildBlockPoints_eval _ _ _ _ _ _ _ (Nat.ne_of_lt ht2) (Nat.ne_of_lt hl2)]
      exact or_or_comm _ _ _
    refine ⟨by rw [e12]; rfl, ?_, ?_⟩
    · intro rr cc
      rw [e12, e21, Option.getD_some, Option.getD_some]
      exact hpts rr cc
    · intro rr cc
      rw [e12, e21, Option.getD_some, Option.getD_some]
      exact congrArg (fun x => charViewList.getD x ' ') (hpts rr cc)
  · intro g ps gf t b l r h hmem ht hl
    have hsub := buildSeq_mask_sub g ps gf t b l r h hmem
    refine ⟨?_, ?_, ?_, ?_, ?_, ?_⟩
    · intro i h1 h2
      have ha := hsub i l
      have hb := hsub i r
      rw [blockMask_int_left _ _ _ _ _ h1 h2] at ha
      rw [blockMask_int_right _ _ _ _ _ h1 h2] at hb
      exact ⟨ha, hb⟩
    · intro j h1 h2
      have ha := hsub t j
      have hb := hsub b j
      rw [blockMask_top_edge _ _ _ _ _ h1 h2] at ha
      rw [blockMask_bottom_edge _ _ _ _ _ h1 h2] at hb
      exact ⟨ha, hb⟩
    · have ha := hsub t l
      rwa [blockMask_corner_tl _ _ _ _ (Nat.ne_of_lt ht) (Nat.ne_of_lt hl)] at ha
    · have ha := hsub t r
      rwa [blockMask_corner_tr _ _ _ _ (Nat.ne_of_lt ht) (Nat.ne_of_lt hl)] at ha
    · have ha := hsub b l
      rwa [blockMask_corner_bl _ _ _ _ (Nat.ne_of_lt ht) (Nat.ne_of_lt hl)] at ha
    · have ha := hsub b r
      rwa [blockMask_corner_br _ _ _ _ (Nat.ne_of_lt ht) (Nat.ne_of_lt hl)] at ha

/-- Witness for C7 at concrete inputs: the overlapping blocks (0, 2, 0, 2)
and (1, 3, 1, 3) give the same bitmask at cell (1, 0) in either order, and
after building (0, 2, 0, 2) alone its top-left corner bits are set. -/
theorem C7_witness :
    ((buildSeq demoView [(0, 2, 0, 2), (1, 3, 1, 3)]).getD demoView).points 1 0
      = ((buildSeq demoView [(1, 3, 1, 3), (0, 2, 0, 2)]).getD demoView).points 1 0 ∧
    6 ||| ((buildSeq demoView [(0, 2, 0, 2)]).getD demoView).points 0 0
      = ((buildSeq demoView [(0, 2, 0, 2)]).getD demoView).points 0 0 :=
  ⟨((C7_build_block_commute.1 demoView 0 2 0 2 1 3 1 3 (by decide) (by decide)
      (by decide) (by decide) (by decide) (by decide) (by decide)
      (by decide)).2.1) 1 0,
   (C7_build_block_commute.2 demoView [(0, 2, 0, 2)]
      ((buildSeq demoView [(0, 2, 0, 2)]).getD demoView) 0 2 0 2 rfl
      (List.mem_singleton.mpr rfl) (by decide) (by decide)).2.2.1⟩

theorem or_lt_sixteen {a b : Nat} (ha : a < 16) (hb : b < 16) :
    a ||| b < 16 := by
  have h : (2 : Nat) ^ 4 = 16 := by norm_num
  rw [← h] at ha hb ⊢
  exact Nat.or_lt_two_pow ha hb

theorem buildSeq_points_lt (ps : List (Nat × Nat × Nat × Nat)) :
    ∀ (g gf : GameView), buildSeq g ps = some gf →
      (∀ rr cc, g.points rr cc < 16) → ∀ rr cc, gf.points rr cc < 16 := by
  induction ps with
  | nil =>
    intro g gf h hg
    rw [buildSeq_nil] at h
    rw [← Option.some.inj h]
    exact hg
  | cons p ps ih =>
    intro g gf h hg
    rw [buildSeq_cons] at h
    obtain ⟨g1, hg1, hrest⟩ := Option.bind_eq_some.mp h
    obtain ⟨-, -, -, -, hlr, htb, rfl⟩ := build_block_eq_some hg1
    refine ih _ _ hrest ?_
    intro rr cc
    rw [builtView_points, buildBlockPoints_eval _ _ _ _ _ _ _ htb hlr]
    exact or_lt_sixteen (hg rr cc) (blockMask_lt_sixteen _ _ _ _ _ _)

/-- C10: the wall-bitmask grid starts all zero and every accepted
`build_block` call only ORs in values below 16, so after any accepted
sequence of calls every cell is below 16 and in particular a valid index
into the 16-entry `CHAR_VIEW_LIST` used by `update_block_char`. -/
theorem C10_points_below_sixteen :
    (∀ (d : Dimension) (rr cc : Nat), (GameView.new d).points rr cc < 16) ∧
    (∀ (g : GameView) (ps : List (Nat × Nat × Nat × Nat)) (gf : GameView),
      buildSeq g ps = some gf → (∀ rr cc, g.points rr cc < 16) →
      ∀ rr cc, gf.points rr cc < 16 ∧ gf.points rr cc < charViewList.length) := by
  constructor
  · intro d rr cc
    show (0 : Nat) < 16
    decide
  · intro g ps gf h hg rr cc
    have hlt := buildSeq_points_lt ps g gf h hg rr cc
    exact ⟨hlt, by show gf.points rr cc < 16; exact hlt⟩

/-- Witness for C10 at a concrete input: after building the outer border on
a fresh view, cell (0, 0) holds a value below 16. -/
theorem C10_witness :
    ((buildSeq demoView [(0, 24, 0, 69)]).getD demoView).points 0 0 < 16 :=
  (C10_points_below_sixteen.2 demoView [(0, 24, 0, 69)]
    ((buildSeq demoView [(0, 24, 0, 69)]).getD demoView) rfl
    (fun _ _ => (by decide : (0 : Nat) < 16)) 0 0).1

/-- C2 counterexample: the claim says `build_block` terminates exactly when
the precondition `0 ≤ top < bottom < height ∧ 0 ≤ left < right < width` is
violated, but the source only checks `>= height`, `>= width`, and equality:
the inverted call `(top, bottom, left, right) = (5, 2, 0, 10)` violates
`top < bottom` yet is accepted (its row loop is simply empty). -/
theorem C2_counterexample :
    ¬ (0 ≤ 5 ∧ 5 < 2 ∧ 2 < 25 ∧ 0 ≤ 0 ∧ 0 < 10 ∧ 10 < 70) ∧
    (build_block demoView 5 2 0 10).isSome = true := by
  constructor
  · decide
  · decide

/-- C2 amended: `build_block(top, bottom, left, right)` terminates the
process exactly when `top ≥ height`, `bottom ≥ height`, `left ≥ width`,
`right ≥ width`, `left = right` or `top = bottom` (so inverted bounds such
as `top > bottom` are accepted, with empty edge loops); a rejected call
performs no mutation (the process exits before touching the grid), an
accepted call only changes in-bounds cells, and boundary-adjacent valid
parameters (`right = 69` for width 70) are accepted while `right = 70` is
rejected. -/
theorem C2_amended_build_block_rejection :
    (∀ (g : GameView) (t b l r : Nat),
      build_block g t b l r = none ↔
        (g.size.height ≤ t ∨ g.size.height ≤ b ∨ g.size.width ≤ l ∨
         g.size.width ≤ r ∨ l = r ∨ t = b)) ∧
    (∀ (g : GameView) (t b l r : Nat) (g' : GameView),
      build_block g t b l r = some g' →
      ∀ rr cc, g'.points rr cc ≠ g.points rr cc →
        rr < g.size.height ∧ cc < g.size.width) ∧
    (build_block demoView 0 24 0 69).isSome = true ∧
    build_block demoView 0 24 0 70 = none := by
  refine ⟨?_, ?_, by decide, rfl⟩
  · intro g t b l r
    unfold build_block
    by_cases h : g.size.height ≤ t ∨ g.size.height ≤ b ∨ g.size.width ≤ l ∨
        g.size.width ≤ r ∨ l = r ∨ t = b
    · rw [if_pos h]
      simp [h]
    · rw [if_neg h]
      simp [h]
  · intro g t b l r g' hsome rr cc hne
    obtain ⟨h1, h2, h3, h4, hlr, htb, rfl⟩ := build_block_eq_some hsome
    rw [builtView_points, buildBlockPoints_eval _ _ _ _ _ _ _ htb hlr] at hne
    have hm : blockMask t b l r rr cc ≠ 0 := by
      intro h0
      rw [h0, Nat.or_zero] at hne
      exact hne rfl
    obtain ⟨hrow, hcol⟩ := blockMask_ne_zero _ _ _ _ _ _ hm
    constructor <;> omega

/-- Witness for C2's amended theorem at concrete inputs: the degenerate
call (3, 3, 5, 9) is rejected, and the accepted call (0, 2, 0, 2) only
changed in-bounds cells, checked at cell (1, 0). -/
theorem C2_witness :
    build_block demoView 3 3 5 9 = none ∧
    (1 < demoView.size.height ∧ 0 < demoView.size.width) :=
  ⟨(C2_amended_build_block_rejection.1 demoView 3 3 5 9).mpr
      (Or.inr (Or.inr (Or.inr (Or.inr (Or.inr rfl))))),
   C2_amended_build_block_rejection.2.1 demoView 0 2 0 2
      ((build_block demoView 0 2 0 2).getD demoView) rfl 1 0 (by decide)⟩

theorem appearedAt_setAppeared (ms : List Marmot) (i : Nat) (b : Bool) (j : Nat) :
    appearedAt (setAppeared ms i b) j
      = if j = i ∧ j < ms.length then b else appearedAt ms j := by
  by_cases hji : j = i
  · subst hji
    by_cases hlt : j < ms.length
    · unfold appearedAt setAppeared
      rw [getD_set_self _ _ _ _ hlt, if_pos ⟨rfl, hlt⟩]
    · unfold appearedAt setAppeared
      rw [List.set_eq_of_length_le (by omega), if_neg (fun hc => hlt hc.2)]
  · unfold appearedAt setAppeared
    rw [getD_set_ne _ _ _ _ _ hji, if_neg (fun hc => hji hc.1)]

theorem length_setAppeared (ms : List Marmot) (i : Nat) (b : Bool) :
    (setAppeared ms i b).length = ms.length :=
  List.length_set ms i _

theorem length_foldl_setAppeared (is : List Nat) :
    ∀ (ms : List Marmot) (b : Bool),
      (is.foldl (fun a i => setAppeared a i b) ms).length = ms.length := by
  induction is with
  | nil => intro ms b; rfl
  | cons i is ih =>
    intro ms b
    rw [List.foldl_cons, ih, length_setAppeared]

theorem appearedAt_foldl_set (is : List Nat) :
    ∀ (ms : List Marmot) (b : Bool) (j : Nat),
      appearedAt (is.foldl (fun a i => setAppeared a i b) ms) j
        = if j ∈ is ∧ j < ms.length then b else appearedAt ms j := by
  induction is with
  | nil => intro ms b j; simp
  | cons i is ih =>
    intro ms b j
    rw [List.foldl_cons, ih, appearedAt_setAppeared, length_setAppeared]
    by_cases hlt : j < ms.length
    · by_cases hm : j ∈ is
      · rw [if_pos ⟨hm, hlt⟩, if_pos ⟨List.mem_cons_of_mem i hm, hlt⟩]
      · rw [if_neg (fun hc => hm hc.1)]
        by_cases hji : j = i
        · rw [if_pos ⟨hji, hlt⟩,
            if_pos ⟨by rw [hji]; exact List.mem_cons_self i is, hlt⟩]
        · rw [if_neg (fun hc => hji hc.1),
            if_neg (fun hc => (List.mem_cons.mp hc.1).elim hji hm)]
    · rw [if_neg (fun hc => hlt hc.2), if_neg (fun hc => hlt hc.2),
        if_neg (fun hc => hlt hc.2)]

theorem foldl_pair_fst {α β γ : Type} (l : List β) (f : α → β → α)
    (g2 : γ → β → γ) (a : α) (c : γ) :
    (l.foldl (fun p x => (f p.1 x, g2 p.2 x)) (a, c)).1 = l.foldl f a := by
  induction l generalizing a c with
  | nil => rfl
  | cons x l ih => exact ih (f a x) (g2 c x)

theorem appearedAt_clear (ms : List Marmot) (h9 : ms.length = 9)
    (j : Nat) (hj : j < 9) :
    appearedAt (clearAppeared ms) j = false := by
  unfold clearAppeared
  rw [appearedAt_foldl_set]
  rw [if_pos ⟨List.mem_range.mpr hj, by omega⟩]

theorem length_clearAppeared (ms : List Marmot) :
    (clearAppeared ms).length = ms.length :=
  length_foldl_setAppeared _ ms false

theorem spawnTick_marmots (g : Game) (draws : List Nat)
    (hp : ¬ g.state = GameState.Stopped) :
    (spawnTick g draws).view.hole_marmots
      = draws.foldl (fun a i => setAppeared a i true)
          (clearAppeared g.view.hole_marmots) := by
  unfold spawnTick
  rw [if_neg hp]
  exact foldl_pair_fst draws (fun a i => setAppeared a i true)
    (fun v ri => write_words v (holeAt g.view ri).x (holeAt g.view ri).y "🐭".data)
    (clearAppeared g.view.hole_marmots)
    ((List.range 9).foldl
      (fun v i => write_words v (holeAt g.view i).x (holeAt g.view i).y " ".data)
      g.view.views)

theorem spawnTick_appearedAt (g : Game) (draws : List Nat)
    (hp : ¬ g.state = GameState.Stopped)
    (h9 : g.view.hole_marmots.length = 9) (j : Nat) (hj : j < 9) :
    appearedAt (spawnTick g draws).view.hole_marmots j
      = decide (j ∈ draws) := by
  rw [spawnTick_marmots g draws hp, appearedAt_foldl_set,
    length_clearAppeared, h9]
  by_cases hm : j ∈ draws
  · rw [if_pos ⟨hm, hj⟩]
    simp [hm]
  · rw [if_neg (fun hc => hm hc.1), appearedAt_clear _ h9 _ hj]
    simp [hm]

/-- C3: a spawn tick taken in the Playing state, with the tick's random
draws as inputs (a count in `[1, 6]` and that many hole indices in
`[0, 8]`), first clears all nine appeared flags and then sets exactly those
of the drawn indices: afterwards a hole is appeared iff its index is among
the draws, duplicates have no extra effect, and between 1 and 6 of the nine
holes are appeared. -/
theorem C3_spawn_tick :
    ∀ (g : Game) (draws : List Nat),
      g.state = GameState.Playing →
      g.view.hole_marmots.length = 9 →
      1 ≤ draws.length → draws.length ≤ 6 →
      (∀ i ∈ draws, i < 9) →
      (∀ j, j < 9 →
        (appearedAt (spawnTick g draws).view.hole_marmots j = true ↔
          j ∈ draws)) ∧
      1 ≤ ((List.range 9).filter
        (fun j => appearedAt (spawnTick g draws).view.hole_marmots j)).length ∧
      ((List.range 9).filter
        (fun j => appearedAt (spawnTick g draws).view.hole_marmots j)).length ≤ 6 := by
  intro g draws hplay h9 hlen1 hlen6 hdr
  have hp : ¬ g.state = GameState.Stopped := by
    rw [hplay]
    exact fun hc => GameState.noConfusion hc
  have hchar : ∀ j, j < 9 →
      appearedAt (spawnTick g draws).view.hole_marmots j = decide (j ∈ draws) :=
    fun j hj => spawnTick_appearedAt g draws hp h9 j hj
  have hfilter : (List.range 9).filter
        (fun j => appearedAt (spawnTick g draws).view.hole_marmots j)
      = (List.range 9).filter (fun j => decide (j ∈ draws)) :=
    List.filter_congr (fun j hj => hchar j (List.mem_range.mp hj))
  refine ⟨?_, ?_, ?_⟩
  · intro j hj
    rw [hchar j hj]
    exact decide_eq_true_iff
  · rw [hfilter]
    obtain ⟨d, hd⟩ := List.exists_mem_of_ne_nil draws
      (List.length_pos.mp (by omega))
    have hdf : d ∈ (List.range 9).filter (fun j => decide (j ∈ draws)) :=
      List.mem_filter.mpr ⟨List.mem_range.mpr (hdr d hd), by simp [hd]⟩
    have := List.length_pos.mpr (List.ne_nil_of_mem hdf)
    omega
  · rw [hfilter]
    have hnd : ((List.range 9).filter (fun j => decide (j ∈ draws))).Nodup :=
      List.Nodup.filter _ (List.nodup_range 9)
    have hcard : ((List.range 9).filter (fun j => decide (j ∈ draws))).toFinset.card
        = ((List.range 9).filter (fun j => decide (j ∈ draws))).length :=
      List.toFinset_card_of_nodup hnd
    have hsubset : ((List.range 9).filter (fun j => decide (j ∈ draws))).toFinset
        ⊆ draws.toFinset := by
      intro x hx
      rw [List.mem_toFinset] at hx ⊢
      exact of_decide_eq_true (List.mem_filter.mp hx).2
    have hle := Finset.card_le_card hsubset
    have hfin := List.toFinset_card_le draws
    omega

/-- Witness for C3 at a concrete input: in the demo game a spawn tick
drawing holes 0 and 2 leaves hole 0 appeared. -/
theorem C3_witness :
    appearedAt (spawnTick demoGame [0, 2]).view.hole_marmots 0 = true :=
  ((C3_spawn_tick demoGame [0, 2] rfl (by decide) (by decide) (by decide)
    (by decide)).1 0 (by decide)).mpr (by decide)

theorem spawnTick_time (g : Game) (d : List Nat) :
    (spawnTick g d).time = g.time := by
  unfold spawnTick
  split <;> rfl

theorem spawnTick_state (g : Game) (d : List Nat) :
    (spawnTick g d).state = g.state := by
  unfold spawnTick
  split <;> rfl

theorem timerTick_time_le (g : Game) : (timerTick g).time ≤ g.time := by
  unfold timerTick
  by_cases hs : g.state = GameState.Stopped
  · rw [if_pos hs]
  · rw [if_neg hs]
    by_cases ht : 0 < g.time
    · rw [if_pos ht]
      exact Nat.sub_le g.time 1
    · rw [if_neg ht]

theorem timerTick_playing_decrement (g : Game)
    (hp : g.state = GameState.Playing) (ht : 0 < g.time) :
    (timerTick g).time = g.time - 1 := by
  unfold timerTick
  rw [if_neg (by rw [hp]; exact fun hc => GameState.noConfusion hc), if_pos ht]

theorem timerTick_playing_zero (g : Game)
    (hp : g.state = GameState.Playing) (ht : g.time = 0) :
    (timerTick g).state = GameState.Stopped := by
  unfold timerTick
  rw [if_neg (by rw [hp]; exact fun hc => GameState.noConfusion hc),
    if_neg (by omega)]

theorem timerTick_state_stopped (g : Game)
    (hs : g.state = GameState.Stopped) :
    (timerTick g).state = GameState.Stopped := by
  unfold timerTick
  rw [if_pos hs]
  exact hs

theorem pressDigit_eq (g : Game) (ch : Char) :
    pressDigit g ch =
      if appearedAt g.view.hole_marmots (ch.toNat - 48 - 1) then
        { g with
          view := { g.view with
            views := write_words g.view.views
              (holeAt g.view (ch.toNat - 48 - 1)).x
              (holeAt g.view (ch.toNat - 48 - 1)).y "❌".data }
          scores := g.scores + 10 }
      else g :=
  rfl

theorem pressDigit_time (g : Game) (ch : Char) :
    (pressDigit g ch).time = g.time := by
  rw [pressDigit_eq]
  split <;> rfl

theorem pressDigit_state (g : Game) (ch : Char) :
    (pressDigit g ch).state = g.state := by
  rw [pressDigit_eq]
  split <;> rfl

theorem pressDigit_marmots (g : Game) (ch : Char) :
    (pressDigit g ch).view.hole_marmots = g.view.hole_marmots := by
  rw [pressDigit_eq]
  split <;> rfl

theorem pressDigit_points (g : Game) (ch : Char) :
    (pressDigit g ch).view.points = g.view.points := by
  rw [pressDigit_eq]
  split <;> rfl

theorem pressDigit_scores_appeared (g : Game) (ch : Char)
    (h : appearedAt g.view.hole_marmots (ch.toNat - 48 - 1) = true) :
    (pressDigit g ch).scores = g.scores + 10 := by
  rw [pressDigit_eq, if_pos h]

theorem pressDigit_not_appeared (g : Game) (ch : Char)
    (h : appearedAt g.view.hole_marmots (ch.toNat - 48 - 1) = false) :
    pressDigit g ch = g := by
  rw [pressDigit_eq, if_neg (by rw [h]; exact Bool.false_ne_true)]

theorem processEvent_hasEgg (s : Sys) (ch : Char) :
    (processEvent s ch).hasEgg = s.hasEgg := by
  unfold processEvent
  split <;> rfl

theorem processEvent_time (s : Sys) (ch : Char) :
    (processEvent s ch).game.time = s.game.time := by
  unfold processEvent
  split
  · exact pressDigit_time _ _
  · rfl

theorem processEvent_state (s : Sys) (ch : Char) :
    (processEvent s ch).game.state = s.game.state := by
  unfold processEvent
  split
  · exact pressDigit_state _ _
  · rfl

theorem winCheck_time (s : Sys) : (winCheck s).game.time = s.game.time := by
  unfold winCheck
  split <;> rfl

theorem winCheck_state (s : Sys) (h : s.game.state = GameState.Stopped) :
    (winCheck s).game.state = GameState.Stopped := by
  unfold winCheck
  split
  · rfl
  · exact h

theorem inputStep_hasEgg_mono (s : Sys) (ch : Char) (h : s.hasEgg = true) :
    (inputStep s ch).hasEgg = true := by
  unfold inputStep
  split
  · exact h
  · unfold winCheck
    split
    · rfl
    · rw [processEvent_hasEgg]
      exact h

theorem foldl_inputStep_hasEgg (cs : List Char) :
    ∀ (s : Sys), s.hasEgg = true → (cs.foldl inputStep s).hasEgg = true := by
  induction cs with
  | nil => intro s h; exact h
  | cons c cs ih =>
    intro s h
    exact ih (inputStep s c) (inputStep_hasEgg_mono s c h)

/-- C4: remaining time never increases under any actor's step; a timer tick
taken in the Playing state with positive time decrements it by exactly 1; a
timer tick in the Playing state with time 0 flips the status to Stopped;
and Stopped is absorbing — no step of any actor ever sets the status back
to Playing. A fresh game starts with 60 seconds. -/
theorem C4_time_monotone_stopped_absorbing :
    (∀ d : Dimension, (Game.new d).time = 60) ∧
    (∀ (s : Sys) (a : Act), (sysStep s a).game.time ≤ s.game.time) ∧
    (∀ g : Game, g.state = GameState.Playing → 0 < g.time →
      (timerTick g).time = g.time - 1) ∧
    (∀ g : Game, g.state = GameState.Playing → g.time = 0 →
      (timerTick g).state = GameState.Stopped) ∧
    (∀ (s : Sys) (a : Act), s.game.state = GameState.Stopped →
      (sysStep s a).game.state = GameState.Stopped) := by
  refine ⟨fun _ => rfl, ?_, timerTick_playing_decrement, timerTick_playing_zero, ?_⟩
  · intro s a
    cases a with
    | timer => exact timerTick_time_le s.game
    | spawn d => exact Nat.le_of_eq (spawnTick_time s.game d)
    | key ch =>
      show (inputStep s ch).game.time ≤ s.game.time
      unfold inputStep
      split
      · exact Nat.le_refl _
      · rw [winCheck_time]
        exact Nat.le_of_eq (processEvent_time s ch)
  · intro s a hs
    cases a with
    | timer => exact timerTick_state_stopped s.game hs
    | spawn d =>
      show (spawnTick s.game d).state = GameState.Stopped
      rw [spawnTick_state]
      exact hs
    | key ch =>
      show (inputStep s ch).game.state = GameState.Stopped
      unfold inputStep
      split
      · exact hs
      · exact winCheck_state _ (by rw [processEvent_state]; exact hs)

/-- Witness for C4 at a concrete input: one timer tick of the running demo
game decrements its time by exactly 1. -/
theorem C4_witness :
    demoGame.state = GameState.Playing ∧ 0 < demoGame.time ∧
    (timerTick demoGame).time = demoGame.time - 1 :=
  ⟨rfl, by decide,
   C4_time_monotone_stopped_absorbing.2.2.1 demoGame rfl (by decide)⟩

/-- C5: the win banner fires during an input-loop iteration iff the key is
not 'q', the score after processing the event exceeds 1024, and the banner
has not been shown; firing sets the status to Stopped and marks the banner
shown; the shown flag is never reset, so after it is set the banner never
fires again on any later sequence of events. -/
theorem C5_win_banner_once :
    (∀ (s : Sys) (ch : Char),
      stepFires s ch = true ↔
        (¬ ch = 'q' ∧ 1024 < (processEvent s ch).game.scores ∧
         s.hasEgg = false)) ∧
    (∀ (s : Sys) (ch : Char), stepFires s ch = true →
      (inputStep s ch).game.state = GameState.Stopped ∧
      (inputStep s ch).hasEgg = true) ∧
    (∀ (s : Sys) (ch : Char), s.hasEgg = true →
      (inputStep s ch).hasEgg = true) ∧
    (∀ (s : Sys), s.hasEgg = true → ∀ (cs : List Char) (ch : Char),
      stepFires (cs.foldl inputStep s) ch = false) := by
  refine ⟨?_, ?_, inputStep_hasEgg_mono, ?_⟩
  · intro s ch
    unfold stepFires winFires
    by_cases hq : ch = 'q'
    · rw [if_pos hq]
      simp [hq]
    · rw [if_neg hq, processEvent_hasEgg]
      simp [hq]
  · intro s ch h
    unfold stepFires at h
    by_cases hq : ch = 'q'
    · rw [if_pos hq] at h
      exact Bool.noConfusion h
    · rw [if_neg hq] at h
      unfold inputStep
      rw [if_neg hq]
      unfold winCheck
      rw [if_pos h]
      exact ⟨rfl, rfl⟩
  · intro s hs cs ch
    have hegg := foldl_inputStep_hasEgg cs s hs
    unfold stepFires winFires
    by_cases hq : ch = 'q'
    · rw [if_pos hq]
    · rw [if_neg hq, processEvent_hasEgg, hegg]
      simp

/-- Witness for C5 at a concrete input: from the over-threshold demo system
any non-quit key fires the banner and marks it shown. -/
theorem C5_witness :
    stepFires demoSys 'x' = true ∧ (inputStep demoSys 'x').hasEgg = true :=
  ⟨by decide, (C5_win_banner_once.2.1 demoSys 'x' (by decide)).2⟩

/-- C1 counterexample: the claim says a successful strike clears the hole's
appeared flag so that a second press of the same digit scores nothing, but
the source's digit arm never writes the flag: with hole 0 appeared,
pressing '1' scores 10, leaves the flag set, and a second press of '1'
before any spawn tick scores again for a total of 20. -/
theorem C1_counterexample :
    (pressDigit demoGameHit '1').scores = 10 ∧
    appearedAt (pressDigit demoGameHit '1').view.hole_marmots 0 = true ∧
    (pressDigit (pressDigit demoGameHit '1') '1').scores = 20 := by
  refine ⟨?_, ?_, ?_⟩ <;> decide

/-- C1 amended: pressing a digit key '1'-'9' mapping to hole index
digit − 1 leaves time, status, the wall grid and every appeared flag
unchanged; if that hole's appeared flag is set the score increases by
exactly 10 but the flag remains set — so a second press of the same digit
before the next spawn tick scores another 10 — and if the flag is not set
the keypress changes nothing at all. -/
theorem C1_amended_press_digit :
    ∀ (g : Game) (ch : Char), '1' ≤ ch → ch ≤ '9' →
      ((pressDigit g ch).time = g.time ∧
       (pressDigit g ch).state = g.state ∧
       (pressDigit g ch).view.hole_marmots = g.view.hole_marmots ∧
       (pressDigit g ch).view.points = g.view.points) ∧
      (appearedAt g.view.hole_marmots (ch.toNat - 48 - 1) = true →
        (pressDigit g ch).scores = g.scores + 10 ∧
        (pressDigit (pressDigit g ch) ch).scores = g.scores + 10 + 10) ∧
      (appearedAt g.view.hole_marmots (ch.toNat - 48 - 1) = false →
        pressDigit g ch = g) := by
  intro g ch h1 h9
  refine ⟨⟨pressDigit_time g ch, pressDigit_state g ch,
    pressDigit_marmots g ch, pressDigit_points g ch⟩, ?_, pressDigit_not_appeared g ch⟩
  intro happ
  have hs1 := pressDigit_scores_appeared g ch happ
  have happ2 : appearedAt (pressDigit g ch).view.hole_marmots
      (ch.toNat - 48 - 1) = true := by
    rw [pressDigit_marmots]
    exact happ
  have hs2 := pressDigit_scores_appeared (pressDigit g ch) ch happ2
  exact ⟨hs1, by rw [hs2, hs1]⟩

/-- Witness for C1's amended theorem at a concrete input: pressing '1' on
the demo game with hole 0 appeared keeps the time and scores 10. -/
theorem C1_witness :
    ('1' ≤ '1' ∧ '1' ≤ '9') ∧
    (pressDigit demoGameHit '1').time = demoGameHit.time ∧
    (pressDigit demoGameHit '1').scores = demoGameHit.scores + 10 :=
  ⟨⟨by decide, by decide⟩,
   (C1_amended_press_digit demoGameHit '1' (by decide) (by decide)).1.1,
   ((C1_amended_press_digit demoGameHit '1' (by decide) (by decide)).2.1
     (by decide)).1⟩

end WhacAMole
